import Mathlib

/-!
# Verification of the Colombia working-days calculation service

This file is a shallow embedding, in Lean 4, of the core of the
Colombia working-days API: the holiday calendar (external list plus the
local Colombian-holiday computation), the business-hours and working-day
predicates, the backward adjustment of an instant to the previous valid
business instant, and the forward advancement by working days and hours.

## Time model

* An **instant** is an `Int`: minutes since 1970-01-01T00:00 UTC
  (the service documents minute precision; seconds and milliseconds are
  always zeroed by the code whenever it sets a time, and `Int` division
  `/` below is floor division, matching calendar arithmetic).
* Bogotá civil time is UTC-05:00, fixed, no daylight saving
  (`America/Bogota`), so the local reading of instant `t` is derived
  from `t - 300` (minutes).
* A **civil day number** is an `Int`: days since 1970-01-01 (Gregorian).
  Day 0 (1970-01-01) was a Thursday.
* Civil dates `(year, month, day)` convert to day numbers with a
  standard Gregorian era/year-of-era decomposition (the same calendar
  arithmetic the `luxon` library and JS `Date` implement); the
  year-of-era lookup is implemented by bounded search so that the
  round-trip is provable by induction.
* The external holiday list (`YYYY-MM-DD` strings fetched from the
  provider) is modelled as a `List Int` of civil day numbers; comparing
  ISO date strings for equality/order is equivalent to comparing day
  numbers.
-/

/-! ## Gregorian calendar arithmetic -/

/-- Days from 1 March of year 0 of an era to 1 March of year-of-era `y`
(`0 ≤ y ≤ 400`): 365 per year plus the Gregorian leap rule. -/
def dys (y : Nat) : Nat := 365*y + y/4 - y/100 + y/400

/-- Largest year-of-era `t ≤ bound` whose first day is at or before `doe`. -/
def yoeSearch : Nat → Nat → Nat
  | 0, _ => 0
  | y+1, doe => if dys (y+1) ≤ doe then y+1 else yoeSearch y doe

/-- The era (400-year Gregorian cycle) containing day number `z`. -/
def eraOf (z : Int) : Int := (z + 719468) / 146097

/-- Day-of-era of day number `z`: offset within its 146097-day era. -/
def doeOf (z : Int) : Nat := ((z + 719468) - eraOf z * 146097).toNat

/-- Year-of-era of a day-of-era. -/
def yoeOfDoe (doe : Nat) : Nat := yoeSearch 399 doe

/-- Day-of-year (March-based, 0 = 1 March) of a day-of-era. -/
def doyOfDoe (doe : Nat) : Nat :=
  doe - (365*(yoeOfDoe doe) + (yoeOfDoe doe)/4 - (yoeOfDoe doe)/100)

/-- March-based month index (0 = March … 11 = February) of a day-of-year. -/
def mpOfDoy (doy : Nat) : Nat := (5*doy + 2)/153

/-- Day-of-month (1-based) of a day-of-year. -/
def dayOfDoy (doy : Nat) : Nat := doy - (153*(mpOfDoy doy) + 2)/5 + 1

/-- Calendar month (1 = January … 12 = December) from the March-based index. -/
def monthFromMp (mp : Nat) : Nat := if mp < 10 then mp + 3 else mp - 9

/-- Calendar month of a day-of-year. -/
def monthOfDoy (doy : Nat) : Nat := monthFromMp (mpOfDoy doy)

/-- Civil date `(year, month, day)` of a day number. -/
def civilFromDays (z : Int) : Int × Nat × Nat :=
  (eraOf z * 400 + yoeOfDoe (doeOf z)
     + (if monthOfDoy (doyOfDoe (doeOf z)) ≤ 2 then 1 else 0),
   monthOfDoy (doyOfDoe (doeOf z)),
   dayOfDoy (doyOfDoe (doeOf z)))

/-- Shift a calendar year to the March-based year used inside an era. -/
def yShift (y : Int) (m : Nat) : Int := y - (if m ≤ 2 then 1 else 0)

/-- Year-of-era of a (March-based) year. -/
def yoeOfYear (y' : Int) : Nat := (y' - (y' / 400) * 400).toNat

/-- March-based month index of a calendar month. -/
def mpOfMonth (m : Nat) : Nat := if 2 < m then m - 3 else m + 9

/-- Day-of-year (March-based) of a month/day pair. -/
def doyOfMd (m d : Nat) : Nat := (153*(mpOfMonth m) + 2)/5 + d - 1

/-- Day number of a civil date `(year, month, day)`; 1970-01-01 is day 0. -/
def daysFromCivil (y : Int) (m d : Nat) : Int :=
  (yShift y m) / 400 * 146097
    + ((365*(yoeOfYear (yShift y m)) + (yoeOfYear (yShift y m))/4
         - (yoeOfYear (yShift y m))/100 + doyOfMd m d : Nat) : Int)
    - 719468

/-! ### Round-trip: `daysFromCivil` inverts `civilFromDays` -/

theorem yoeSearch_le (y doe : Nat) : yoeSearch y doe ≤ y := by
  induction y with
  | zero => simp [yoeSearch]
  | succ y ih =>
    simp only [yoeSearch]
    split
    · exact Nat.le_refl _
    · exact Nat.le_succ_of_le ih

theorem dys_yoeSearch_le (y doe : Nat) : dys (yoeSearch y doe) ≤ doe := by
  induction y with
  | zero => simp [yoeSearch, dys]
  | succ y ih =>
    simp only [yoeSearch]
    split
    · assumption
    · exact ih

theorem lt_dys_yoeSearch_succ (y doe : Nat) (h : doe < dys (y+1)) :
    doe < dys (yoeSearch y doe + 1) := by
  induction y with
  | zero => simpa [yoeSearch] using h
  | succ y ih =>
    simp only [yoeSearch]
    split
    · exact h
    · next hlt => exact ih (by omega)

theorem doeOf_lt (z : Int) : doeOf z < 146097 := by
  simp only [doeOf, eraOf]
  omega

theorem doeOf_spec (z : Int) : eraOf z * 146097 + (doeOf z : Int) = z + 719468 := by
  simp only [doeOf, eraOf]
  omega

/-- Core of the round-trip argument, over abstract era/year/day data. -/
theorem roundtrip_core (era : Int) (doe yoe doy mp : Nat) (z : Int)
    (hspec : era * 146097 + (doe : Int) = z + 719468)
    (hyoe_le : yoe ≤ 399)
    (h1 : 365*yoe + yoe/4 - yoe/100 + yoe/400 ≤ doe)
    (hdoy : doy = doe - (365*yoe + yoe/4 - yoe/100))
    (hmp : mp = (5*doy + 2)/153)
    (hdoy_lt : doy < 366) :
    daysFromCivil (era * 400 + yoe + (if monthFromMp mp ≤ 2 then 1 else 0))
      (monthFromMp mp) (doy - (153*mp + 2)/5 + 1) = z := by
  have hmp_doy : (153*mp + 2)/5 ≤ doy := by
    subst hmp; omega
  rcases Nat.lt_or_ge mp 10 with hc | hc
  · -- March … December: month = mp + 3, no year shift
    have hmf : monthFromMp mp = mp + 3 := by simp [monthFromMp, hc]
    rw [hmf]
    have hif : (if mp + 3 ≤ 2 then (1:Int) else 0) = 0 := by
      split <;> omega
    rw [hif]
    simp only [daysFromCivil, yShift, doyOfMd, mpOfMonth, yoeOfYear]
    have hif2 : (if mp + 3 ≤ 2 then (1:Int) else 0) = 0 := by
      split <;> omega
    rw [hif2]
    have hif3 : (if 2 < mp + 3 then mp + 3 - 3 else mp + 3 + 9) = mp := by
      split <;> omega
    rw [hif3]
    omega
  · -- January, February: month = mp − 9 ≤ 2, year shifted by one
    have hmp11 : mp ≤ 11 := by
      subst hmp; omega
    have hmf : monthFromMp mp = mp - 9 := by
      simp only [monthFromMp]
      split <;> omega
    rw [hmf]
    have hif : (if mp - 9 ≤ 2 then (1:Int) else 0) = 1 := by
      split <;> omega
    rw [hif]
    simp only [daysFromCivil, yShift, doyOfMd, mpOfMonth, yoeOfYear]
    have hif2 : (if mp - 9 ≤ 2 then (1:Int) else 0) = 1 := by
      split <;> omega
    rw [hif2]
    have hif3 : (if 2 < mp - 9 then mp - 9 - 3 else mp - 9 + 9) = mp := by
      split <;> omega
    rw [hif3]
    omega

/-- Round-trip of the civil-date conversion: interpreting a day number as
a Gregorian `(year, month, day)` and converting back is the identity. -/
theorem daysFromCivil_civilFromDays (z : Int) :
    daysFromCivil (civilFromDays z).1 (civilFromDays z).2.1 (civilFromDays z).2.2 = z := by
  have hdoe_lt : doeOf z < 146097 := doeOf_lt z
  have hyoe_le : yoeOfDoe (doeOf z) ≤ 399 := yoeSearch_le 399 (doeOf z)
  have h1 : dys (yoeOfDoe (doeOf z)) ≤ doeOf z := dys_yoeSearch_le 399 (doeOf z)
  have h2 : doeOf z < dys (yoeOfDoe (doeOf z) + 1) := by
    refine lt_dys_yoeSearch_succ 399 (doeOf z) ?_
    simpa [dys] using hdoe_lt
  simp only [dys] at h1 h2
  have hdoy_lt : doeOf z
      - (365 * yoeOfDoe (doeOf z) + yoeOfDoe (doeOf z) / 4 - yoeOfDoe (doeOf z) / 100)
      < 366 := by
    rcases Nat.lt_or_ge (yoeOfDoe (doeOf z)) 399 with hy | hy
    · have he : (yoeOfDoe (doeOf z) + 1)/4 ≤ yoeOfDoe (doeOf z)/4 + 1 := by omega
      have hf : yoeOfDoe (doeOf z)/100 ≤ (yoeOfDoe (doeOf z) + 1)/100 := by omega
      have hc : (yoeOfDoe (doeOf z) + 1)/400 = 0 := by omega
      omega
    · have h399 : yoeOfDoe (doeOf z) = 399 := by omega
      rw [h399] at h1 h2 ⊢
      omega
  simp only [civilFromDays, monthOfDoy, dayOfDoy, doyOfDoe]
  exact roundtrip_core (eraOf z) (doeOf z) (yoeOfDoe (doeOf z)) _ _ z
    (doeOf_spec z) hyoe_le h1 rfl rfl hdoy_lt

/-- Sanity: 1970-01-01 is day number 0. -/
example : daysFromCivil 1970 1 1 = 0 := by decide

/-- Sanity: 2025-01-03 is day number 20091 and a Friday. -/
example : daysFromCivil 2025 1 3 = 20091 := by decide

/-! ## Instants and local (Bogotá) readings

`utcToColombiaTime`/`colombiaTimeToUtc` model the functions of
`dateUtils.ts`: `luxon`'s `setZone('America/Bogota')` interprets the
same instant at the fixed −05:00 offset, and `.toUTC().toJSDate()`
returns the same instant.  The local civil reading of an instant and
the instant-level accessors (`hour`, `minute`, `weekday`, the reading's
civil date) are derived below exactly as luxon derives them from the
epoch value and the fixed offset. -/

/-- Local (Bogotá) civil day number containing instant `t`. -/
def localDay (t : Int) : Int := (t - 300) / 1440

/-- Local time-of-day of instant `t`, in minutes after local midnight. -/
def localTod (t : Int) : Nat := ((t - 300) % 1440).toNat

/-- Local `.hour` field of instant `t` (0–23). -/
def localHour (t : Int) : Nat := localTod t / 60

/-- Local `.minute` field of instant `t` (0–59). -/
def localMinute (t : Int) : Nat := localTod t % 60

/-- UTC civil day number containing instant `t`; this is the date part of
`Date.prototype.toISOString()`. -/
def utcDay (t : Int) : Int := t / 1440

/-- Luxon weekday of a day number: 1 = Monday … 7 = Sunday. -/
def luxonWeekday (z : Int) : Nat := ((z + 3) % 7).toNat + 1

/-- JS `Date.prototype.getDay()` weekday of a day number: 0 = Sunday … 6 = Saturday. -/
def jsDay (z : Int) : Nat := ((z + 4) % 7).toNat

/-- Luxon's `.set({hour, minute, second: 0, millisecond: 0})` on the local
reading of `t`: same local civil day, new time-of-day. -/
def setLocalTime (t : Int) (h m : Nat) : Int :=
  1440 * localDay t + (60 * h + m : Nat) + 300

/-- A local civil reading: what luxon exposes for a zoned `DateTime`
(year, month, day, hour, minute; weekday is derived). -/
structure LocalReading where
  year : Int
  month : Nat
  day : Nat
  hour : Nat
  minute : Nat
deriving DecidableEq, Repr

/-- Model of `utcToColombiaTime` (dateUtils.ts): the full local civil
reading of a UTC instant at the fixed −05:00 offset. -/
def utcToColombiaTime (t : Int) : LocalReading :=
  { year := (civilFromDays (localDay t)).1
    month := (civilFromDays (localDay t)).2.1
    day := (civilFromDays (localDay t)).2.2
    hour := localHour t
    minute := localMinute t }

/-- Model of `colombiaTimeToUtc` (dateUtils.ts): the UTC instant of a
local civil reading. -/
def colombiaTimeToUtc (r : LocalReading) : Int :=
  1440 * daysFromCivil r.year r.month r.day + (60 * r.hour + r.minute : Nat) + 300

/-! ## The business-hours policy (types/index.ts) -/

structure BusinessHours where
  startHour : Nat
  startMinute : Nat
  endHour : Nat
  endMinute : Nat
  lunchStartHour : Nat
  lunchStartMinute : Nat
  lunchEndHour : Nat
  lunchEndMinute : Nat

/-- `BusinessHoursConfig` from `types/index.ts`: 08:00–17:00,
lunch 12:00–13:00. -/
def BusinessHoursConfig : BusinessHours :=
  { startHour := 8, startMinute := 0, endHour := 17, endMinute := 0,
    lunchStartHour := 12, lunchStartMinute := 0,
    lunchEndHour := 13, lunchEndMinute := 0 }

/-! ## Holiday service (holidayService.ts)

The external provider's list (`YYYY-MM-DD` date strings) is a value the
service fetches once; on any fetch error `fetchAllHolidays` returns the
empty list.  We model the fetched result as an explicit parameter
`ext : List Int` of civil day numbers.  JS `Date` objects built at
midnight by `new Date(year, month-1, day)` and shifted by whole days
are modelled by their civil day number (the deployment's server clock,
like Bogotá, sits at a fixed non-positive offset, where the
`toISOString` date of such a midnight-anchored `Date` is its civil
date and `getDay()` is its weekday). -/

/-- `FIXED_HOLIDAYS` (month, day) of holidayService.ts. -/
def FIXED_HOLIDAYS : List (Nat × Nat) :=
  [(1, 1), (5, 1), (7, 20), (8, 7), (12, 8), (12, 25)]

/-- `MOVABLE_HOLIDAYS` (month, day) of holidayService.ts. -/
def MOVABLE_HOLIDAYS : List (Nat × Nat) :=
  [(1, 6), (3, 19), (6, 29), (8, 15), (10, 12), (11, 1), (11, 11)]

/-- `moveToNextMonday`: keep a Monday, otherwise move forward
`(8 - getDay()) % 7` days. -/
def moveToNextMonday (z : Int) : Int :=
  if jsDay z = 1 then z else z + ((8 - jsDay z) % 7 : Nat)

/-- Final month/day extraction of the Gregorian computus from `h`, `l`, `a`. -/
def easterMd (h l a : Int) : Nat × Nat :=
  (((h + l - 7 * ((a + 11 * h + 22 * l) / 451) + 114) / 31).toNat,
   ((h + l - 7 * ((a + 11 * h + 22 * l) / 451) + 114) % 31 + 1).toNat)

/-- Middle stage of the computus, over `a = year mod 19`, `b = year div 100`,
`c = year mod 100` (named as in the source). -/
def easterFrom (a b c : Int) : Nat × Nat :=
  easterMd ((19 * a + b - b / 4 - (b - (b + 8) / 25 + 1) / 3 + 15) % 30)
    ((32 + 2 * (b % 4) + 2 * (c / 4) -
        ((19 * a + b - b / 4 - (b - (b + 8) / 25 + 1) / 3 + 15) % 30) - c % 4) % 7)
    a

/-- `calculateEaster` (holidayService.ts): the anonymous Gregorian
computus, producing (month, day).  All intermediate values are
non-negative, so JS number arithmetic is exact integer arithmetic. -/
def calculateEasterMonthDay (year : Nat) : Nat × Nat :=
  easterFrom (year % 19) (year / 100) (year % 100)

/-- Day number of the `Date` returned by `calculateEaster` for a year. -/
def calculateEaster (year : Nat) : Int :=
  daysFromCivil year (calculateEasterMonthDay year).1 (calculateEasterMonthDay year).2

/-- `calculateColombianHolidays` (holidayService.ts): fixed holidays on
their literal dates, movable (bridge-law) holidays moved to next
Monday, Holy Thursday/Good Friday at Easter−3/−2 untransposed, and
Ascension/Corpus Christi/Sacred Heart at Easter+39/+60/+68 moved to
next Monday; the list is then sorted by date string
(for `YYYY-MM-DD` strings, string order is day-number order). -/
def calculateColombianHolidays (year : Nat) : List Int :=
  ((FIXED_HOLIDAYS.map (fun p => daysFromCivil year p.1 p.2))
    ++ (MOVABLE_HOLIDAYS.map (fun p => moveToNextMonday (daysFromCivil year p.1 p.2)))
    ++ [calculateEaster year - 3,
        calculateEaster year - 2,
        moveToNextMonday (calculateEaster year + 39),
        moveToNextMonday (calculateEaster year + 60),
        moveToNextMonday (calculateEaster year + 68)]).mergeSort
    (fun x y => decide (x ≤ y))

/-- `holidayService.isHoliday` (holidayService.ts): convert the instant
to its UTC `YYYY-MM-DD` string via `toISOString` and test membership in
the externally fetched list; there is no fallback on this path. -/
def isHoliday (ext : List Int) (t : Int) : Bool :=
  ext.contains (utcDay t)

/-! ## dateUtils.ts: working-day and business-hours predicates -/

/-- `isWorkingDay` (dateUtils.ts): weekday is taken from the Bogotá
reading, the holiday test from `holidayService.isHoliday` on the raw
instant (hence on its UTC date). -/
def isWorkingDay (ext : List Int) (t : Int) : Bool :=
  if luxonWeekday (localDay t) = 6 ∨ luxonWeekday (localDay t) = 7 then false
  else !(isHoliday ext t)

/-- `isWithinBusinessHours` (dateUtils.ts), on the Bogotá reading of an
instant. -/
def isWithinBusinessHours (t : Int) : Bool :=
  if localHour t < BusinessHoursConfig.startHour ∨
      (localHour t = BusinessHoursConfig.startHour ∧
        localMinute t < BusinessHoursConfig.startMinute) then false
  else if BusinessHoursConfig.endHour < localHour t ∨
      (localHour t = BusinessHoursConfig.endHour ∧
        BusinessHoursConfig.endMinute < localMinute t) then false
  else if (localHour t = BusinessHoursConfig.lunchStartHour ∧
        BusinessHoursConfig.lunchStartMinute ≤ localMinute t) ∨
      (BusinessHoursConfig.lunchStartHour < localHour t ∧
        localHour t < BusinessHoursConfig.lunchEndHour) ∨
      (localHour t = BusinessHoursConfig.lunchEndHour ∧
        localMinute t ≤ BusinessHoursConfig.lunchEndMinute) then false
  else true

/-! ## dateUtils.ts: backward adjustment (`adjustToPreviousWorkingTime`)

The source is a `while` loop (step back one civil day to business
end-of-day until on a working day) followed by in-day adjustment, with
a recursive restart when the candidate sits before business start.  We
model it with explicit fuel (the source has no iteration bound; `none`
means the computation has not finished within `fuel` backward steps). -/

/-- Condition "before business start" of the source (hour/minute
comparison against the config). -/
def beforeBusinessStart (t : Int) : Bool :=
  decide (localHour t < BusinessHoursConfig.startHour ∨
    (localHour t = BusinessHoursConfig.startHour ∧
      localMinute t < BusinessHoursConfig.startMinute))

/-- Condition "after business end" of the source. -/
def afterBusinessEnd (t : Int) : Bool :=
  decide (BusinessHoursConfig.endHour < localHour t ∨
    (localHour t = BusinessHoursConfig.endHour ∧
      BusinessHoursConfig.endMinute < localMinute t))

/-- The lunch test used by `adjustToPreviousWorkingTime`: at or after
lunch start AND strictly before lunch end (note: half-open, unlike
`isWithinBusinessHours`, whose lunch interval is closed at both ends). -/
def inLunchAdjust (t : Int) : Bool :=
  decide ((BusinessHoursConfig.lunchStartHour < localHour t ∨
      (localHour t = BusinessHoursConfig.lunchStartHour ∧
        BusinessHoursConfig.lunchStartMinute ≤ localMinute t)) ∧
    (localHour t < BusinessHoursConfig.lunchEndHour ∨
      (localHour t = BusinessHoursConfig.lunchEndHour ∧
        localMinute t < BusinessHoursConfig.lunchEndMinute)))

/-- One backward step of the source: `minus({days: 1})` then
`set` to business end-of-day. -/
def prevDayEod (t : Int) : Int :=
  setLocalTime (t - 1440) BusinessHoursConfig.endHour BusinessHoursConfig.endMinute

/-- The source's leading `while` loop: step back one day to end-of-day
until `isWorkingDay` holds; `fuel` bounds the number of backward steps. -/
def seekWorkingDay (ext : List Int) : Nat → Int → Option Int
  | 0, t => if isWorkingDay ext t then some t else none
  | f+1, t => if isWorkingDay ext t then some t else seekWorkingDay ext f (prevDayEod t)

/-- In-day snap to business end-of-day when after hours (source lines
"If after business hours, set to end of current day"). -/
def eodSnap (t : Int) : Int :=
  if afterBusinessEnd t then
    setLocalTime t BusinessHoursConfig.endHour BusinessHoursConfig.endMinute
  else t

/-- In-day snap to lunch start when inside the (half-open) lunch window
(source comment says "set to just before lunch" but the code sets
exactly lunch start). -/
def lunchSnap (t : Int) : Int :=
  if inLunchAdjust t then
    setLocalTime t BusinessHoursConfig.lunchStartHour BusinessHoursConfig.lunchStartMinute
  else t

/-- `adjustToPreviousWorkingTime` (dateUtils.ts), with fuel bounding the
total number of backward day-steps taken by the `while` loop and the
recursive restarts. -/
def adjustToPreviousWorkingTime (ext : List Int) : Nat → Int → Option Int
  | 0, t =>
    (seekWorkingDay ext 0 t).bind (fun c =>
      if isWithinBusinessHours c then some c
      else if beforeBusinessStart c then none
      else some (lunchSnap (eodSnap c)))
  | f+1, t =>
    (seekWorkingDay ext (f+1) t).bind (fun c =>
      if isWithinBusinessHours c then some c
      else if beforeBusinessStart c then adjustToPreviousWorkingTime ext f (prevDayEod c)
      else some (lunchSnap (eodSnap c)))

/-! ## workingDaysService.ts: forward advancement -/

/-- The `while` loop of `getNextWorkingDayStart`: candidate days at
business start until a working day is found. -/
def nextDayStartLoop (ext : List Int) : Nat → Int → Option Int
  | 0, t => if isWorkingDay ext t then some t else none
  | f+1, t =>
    if isWorkingDay ext t then some t
    else nextDayStartLoop ext f
      (setLocalTime (t + 1440) BusinessHoursConfig.startHour BusinessHoursConfig.startMinute)

/-- `getNextWorkingDayStart` (workingDaysService.ts): next civil day at
business start, skipping forward over non-working days. -/
def getNextWorkingDayStart (ext : List Int) (fuel : Nat) (t : Int) : Option Int :=
  nextDayStartLoop ext fuel
    (setLocalTime (t + 1440) BusinessHoursConfig.startHour BusinessHoursConfig.startMinute)

/-- The inner `while` of `addWorkingDays`: step forward whole days
(time-of-day preserved) until a working day. -/
def skipNonWorking (ext : List Int) : Nat → Int → Option Int
  | 0, t => if isWorkingDay ext t then some t else none
  | f+1, t => if isWorkingDay ext t then some t else skipNonWorking ext f (t + 1440)

/-- `addWorkingDays` (workingDaysService.ts): `n` times, move one civil
day forward preserving the time-of-day, then keep stepping until a
working day. -/
def addWorkingDays (ext : List Int) (fuel : Nat) : Nat → Int → Option Int
  | 0, t => some t
  | n+1, t => (skipNonWorking ext fuel (t + 1440)).bind (addWorkingDays ext fuel n)

/-- Business start/end and lunch window as minutes-of-day, as the source
obtains them by `set`-ing the hour/minute fields of the config. -/
def bhEndMin : Nat := 60 * BusinessHoursConfig.endHour + BusinessHoursConfig.endMinute

def lunchStartMin : Nat :=
  60 * BusinessHoursConfig.lunchStartHour + BusinessHoursConfig.lunchStartMinute

def lunchEndMin : Nat :=
  60 * BusinessHoursConfig.lunchEndHour + BusinessHoursConfig.lunchEndMinute

/-- `calculateRemainingBusinessHours` (workingDaysService.ts), in
minutes (the source returns fractional hours; at minute granularity the
two are related by the constant factor 60, which the callers' uses
preserve). -/
def calculateRemainingBusinessMinutes (t : Int) : Nat :=
  if isWithinBusinessHours t = false then 0
  else
    Int.toNat (max 0 ((bhEndMin : Int) - localTod t -
      (if localHour t < BusinessHoursConfig.lunchEndHour then
        (if (localTod t : Int) < lunchStartMin then (lunchEndMin : Int) - lunchStartMin
         else if (lunchStartMin : Int) ≤ localTod t ∧ (localTod t : Int) < lunchEndMin then
           (lunchEndMin : Int) - localTod t
         else 0)
       else 0)))

/-- "Before lunch" test of `addHoursSkippingLunch`. -/
def beforeLunchB (t : Int) : Bool :=
  decide (localHour t < BusinessHoursConfig.lunchStartHour ∨
    (localHour t = BusinessHoursConfig.lunchStartHour ∧
      localMinute t < BusinessHoursConfig.lunchStartMinute))

/-- "After lunch" test of `addHoursSkippingLunch` (the first disjunct
`hour ≥ lunchEndHour` subsumes the second, as in the source). -/
def afterLunchB (t : Int) : Bool :=
  decide (BusinessHoursConfig.lunchEndHour ≤ localHour t ∨
    (localHour t = BusinessHoursConfig.lunchEndHour ∧
      BusinessHoursConfig.lunchEndMinute ≤ localMinute t))

/-- The `while` loop of `addHoursSkippingLunch` over (candidate, total
minutes requested, minutes added): add minutes up to lunch start, jump
the lunch gap without counting it, then add the rest. -/
def skipLunchLoop : Nat → Int → Nat → Nat → Option Int
  | 0, _, _, _ => none
  | f+1, t, total, added =>
    if added < total then
      if beforeLunchB t then
        skipLunchLoop f
          (if added + min (total - added) (lunchStartMin - localTod t) < total then
            setLocalTime (t + min (total - added) (lunchStartMin - localTod t))
              BusinessHoursConfig.lunchEndHour BusinessHoursConfig.lunchEndMinute
          else t + min (total - added) (lunchStartMin - localTod t))
          total (added + min (total - added) (lunchStartMin - localTod t))
      else if !(afterLunchB t) then
        skipLunchLoop f
          (setLocalTime t BusinessHoursConfig.lunchEndHour BusinessHoursConfig.lunchEndMinute)
          total added
      else
        skipLunchLoop f (t + (total - added)) total total
    else some t

/-- `addHoursSkippingLunch` (workingDaysService.ts); the loop needs at
most 3 iterations plus the exit check, so the fuel `total + 4` is never
exhausted. -/
def addHoursSkippingLunch (t : Int) (total : Nat) : Option Int :=
  skipLunchLoop (total + 4) t total 0

/-- The `while` loop of `addWorkingHours`: consume the remaining
business minutes of the current day, then restart from the next working
day's business start. -/
def addWorkingHoursLoop (ext : List Int) : Nat → Int → Nat → Nat → Option Int
  | 0, _, _, _ => none
  | f+1, t, total, added =>
    if added < total then
      match (if 0 < calculateRemainingBusinessMinutes t then
          addHoursSkippingLunch t (min (total - added) (calculateRemainingBusinessMinutes t))
        else some t) with
      | none => none
      | some t1 =>
        if added + (if 0 < calculateRemainingBusinessMinutes t then
            min (total - added) (calculateRemainingBusinessMinutes t) else 0) < total then
          match getNextWorkingDayStart ext f t1 with
          | none => none
          | some t2 =>
            addWorkingHoursLoop ext f t2 total
              (added + (if 0 < calculateRemainingBusinessMinutes t then
                min (total - added) (calculateRemainingBusinessMinutes t) else 0))
        else some t1
    else some t

/-- `addWorkingHours` (workingDaysService.ts): the special case (zero
remaining business time and exactly one hour requested) jumps straight
to the next working day's business start; otherwise the general loop
runs with the request converted to minutes. -/
def addWorkingHours (ext : List Int) (fuel : Nat) (t : Int) (hoursToAdd : Nat) : Option Int :=
  if calculateRemainingBusinessMinutes t = 0 ∧ hoursToAdd = 1 then
    getNextWorkingDayStart ext fuel t
  else addWorkingHoursLoop ext fuel t (60 * hoursToAdd) 0

/-- `calculateWorkingDateTime` (workingDaysService.ts): normalize the
anchor backward if it is not already a valid business instant, then add
working days, then working hours. -/
def calculateWorkingDateTime (ext : List Int) (fuel : Nat)
    (days hours : Nat) (anchor : Int) : Option Int :=
  (if isWorkingDay ext anchor = false ∨ isWithinBusinessHours anchor = false then
      adjustToPreviousWorkingTime ext fuel anchor
    else some anchor).bind (fun t1 =>
  (if 0 < days then addWorkingDays ext fuel days t1 else some t1).bind (fun t2 =>
  if 0 < hours then addWorkingHours ext fuel t2 hours else some t2))

/-! ## Basic facts about the local reading -/

theorem localTod_lt (t : Int) : localTod t < 1440 := by
  simp only [localTod]; omega

theorem localTod_setLocalTime (t : Int) (h m : Nat) (hx : 60*h + m < 1440) :
    localTod (setLocalTime t h m) = 60*h + m := by
  simp only [localTod, setLocalTime, localDay]
  omega

theorem localDay_setLocalTime (t : Int) (h m : Nat) (hx : 60*h + m < 1440) :
    localDay (setLocalTime t h m) = localDay t := by
  simp only [localTod, setLocalTime, localDay]
  omega

theorem localDay_add_day (t : Int) : localDay (t + 1440) = localDay t + 1 := by
  simp only [localDay]; omega

theorem localTod_add_day (t : Int) : localTod (t + 1440) = localTod t := by
  simp only [localTod]; omega

/-- The UTC civil day of an instant is the local civil day, plus one
exactly when the local time-of-day is 19:00 (= UTC midnight) or later. -/
theorem utcDay_localDay (t : Int) :
    utcDay t = localDay t + (if 1140 ≤ localTod t then 1 else 0) := by
  simp only [utcDay, localDay, localTod]
  split
  · next h => omega
  · next h => omega

/-- Characterization of `isWithinBusinessHours` in minutes-of-day: the
closed interval [08:00, 17:00] minus the closed interval [12:00, 13:00]. -/
theorem isWithinBusinessHours_iff (t : Int) :
    isWithinBusinessHours t = true ↔
      (480 ≤ localTod t ∧ localTod t ≤ 1020 ∧ ¬(720 ≤ localTod t ∧ localTod t ≤ 780)) := by
  have hlt := localTod_lt t
  simp only [isWithinBusinessHours, localHour, localMinute, BusinessHoursConfig]
  split
  · next h => simp only [Bool.false_eq_true, false_iff]; omega
  · next h1 =>
    split
    · next h => simp only [Bool.false_eq_true, false_iff]; omega
    · next h2 =>
      split
      · next h => simp only [Bool.false_eq_true, false_iff]; omega
      · next h3 => simp only [true_iff]; omega

/-! ## Claim theorems -/

/-- C9: converting an instant to its local Bogotá civil reading and back
is the identity (to the minute, which is the granularity of the model):
`colombiaTimeToUtc (utcToColombiaTime t) = t` for every instant `t`. -/
theorem c9_local_reading_roundtrip (t : Int) :
    colombiaTimeToUtc (utcToColombiaTime t) = t := by
  simp only [colombiaTimeToUtc, utcToColombiaTime]
  rw [daysFromCivil_civilFromDays]
  simp only [localDay, localHour, localMinute, localTod]
  omega

/-- C4: `isWithinBusinessHours` holds exactly on the closed interval
[08:00, 17:00] minus the closed lunch interval [12:00, 13:00]; in
particular a time-of-day of exactly 12:00 (minute 720) or exactly 13:00
(minute 780) is rejected. -/
theorem c4_business_hours_closed_lunch (t : Int) :
    (isWithinBusinessHours t = true ↔
      (480 ≤ localTod t ∧ localTod t ≤ 1020 ∧ ¬(720 ≤ localTod t ∧ localTod t ≤ 780))) ∧
    (localTod t = 720 → isWithinBusinessHours t = false) ∧
    (localTod t = 780 → isWithinBusinessHours t = false) := by
  refine ⟨isWithinBusinessHours_iff t, ?_, ?_⟩
  · intro h
    rcases hb : isWithinBusinessHours t with _ | _
    · rfl
    · have := (isWithinBusinessHours_iff t).mp hb
      omega
  · intro h
    rcases hb : isWithinBusinessHours t with _ | _
    · rfl
    · have := (isWithinBusinessHours_iff t).mp hb
      omega

/-- C4 witness: at 2025-01-03 12:00 local (instant 28932060) and 13:00
local (instant 28932120) the predicate is false. -/
theorem c4_business_hours_closed_lunch_witness :
    (localTod 28932060 = 720 ∧ isWithinBusinessHours 28932060 = false) ∧
    (localTod 28932120 = 780 ∧ isWithinBusinessHours 28932120 = false) :=
  ⟨⟨by decide, (c4_business_hours_closed_lunch 28932060).2.1 (by decide)⟩,
   ⟨by decide, (c4_business_hours_closed_lunch 28932120).2.2 (by decide)⟩⟩

/-- C10: `isWorkingDay` takes the weekday from the Bogotá local day but
the holiday membership from the UTC civil date of the instant; whenever
the local time-of-day is 19:00 or later, the UTC civil date is the day
after the local one, so the holiday test is decided by the following
civil date. -/
theorem c10_holiday_test_uses_utc_date (ext : List Int) (t : Int) :
    (isWorkingDay ext t =
      (if luxonWeekday (localDay t) = 6 ∨ luxonWeekday (localDay t) = 7 then false
       else !(ext.contains (utcDay t)))) ∧
    (1140 ≤ localTod t →
      utcDay t = localDay t + 1 ∧
      isHoliday ext t = ext.contains (localDay t + 1) ∧
      isWorkingDay ext t =
        (if luxonWeekday (localDay t) = 6 ∨ luxonWeekday (localDay t) = 7 then false
         else !(ext.contains (localDay t + 1)))) := by
  have hd : utcDay t = localDay t + (if 1140 ≤ localTod t then 1 else 0) := utcDay_localDay t
  constructor
  · simp only [isWorkingDay, isHoliday]
  · intro h
    rw [if_pos h] at hd
    refine ⟨hd, ?_, ?_⟩
    · simp only [isHoliday, hd]
    · simp only [isWorkingDay, isHoliday, hd]

/-- C10 witness: Friday 2025-01-03 19:00 local (midnight UTC of
2025-01-04) with a holiday list containing only 2025-01-04: the holiday
test consults 2025-01-04, so the Friday instant is not a working day. -/
theorem c10_holiday_test_uses_utc_date_witness :
    1140 ≤ localTod 28932480 ∧
    (utcDay 28932480 = localDay 28932480 + 1 ∧
      isHoliday [(20092 : Int)] 28932480 = [(20092 : Int)].contains (localDay 28932480 + 1) ∧
      isWorkingDay [(20092 : Int)] 28932480 =
        (if luxonWeekday (localDay 28932480) = 6 ∨ luxonWeekday (localDay 28932480) = 7 then false
         else !([(20092 : Int)].contains (localDay 28932480 + 1)))) :=
  ⟨by decide, (c10_holiday_test_uses_utc_date [(20092 : Int)] 28932480).2 (by decide)⟩

/-- C2 (code bug): `holidayService.isHoliday` tests membership in the
externally fetched list only.  When the external fetch failed (empty
list) it returns `false` for every instant — it never consults the local
Colombian-holiday computation, although `calculateColombianHolidays`
does contain, e.g., 2025-01-01 (day 20089; the instant below is
2025-01-01T10:00Z). -/
theorem c2_isHoliday_never_uses_local_fallback :
    (∀ t : Int, isHoliday [] t = false) ∧
    daysFromCivil 2025 1 1 ∈ calculateColombianHolidays 2025 ∧
    isHoliday [] (1440 * 20089 + 600) = false ∧
    daysFromCivil 2025 1 1 = utcDay (1440 * 20089 + 600) := by
  refine ⟨fun t => rfl, ?_, rfl, by decide⟩
  unfold calculateColombianHolidays
  refine (List.Perm.mem_iff (List.mergeSort_perm _ _)).mpr ?_
  decide

/-- C1 (code bug): `adjustToPreviousWorkingTime` can terminate in a
state that violates `isWithinBusinessHours`.  At Friday 2025-01-03
13:00 local (instant 28932120, a working day), the function returns the
anchor unchanged although the predicate rejects 13:00; at 12:30 local
(instant 28932090) it snaps to 12:00 local (instant 28932060), which
the predicate also rejects (closed lunch interval). -/
theorem c1_backward_anchor_invalid_at_lunch_edge :
    isWorkingDay [] 28932120 = true ∧
    isWithinBusinessHours 28932120 = false ∧
    adjustToPreviousWorkingTime [] 10 28932120 = some 28932120 ∧
    adjustToPreviousWorkingTime [] 10 28932090 = some 28932060 ∧
    isWithinBusinessHours 28932060 = false := by
  refine ⟨by decide, by decide, by decide, by decide, by decide⟩

/-- C8: with `days = hours = 0`, `calculateWorkingDateTime` returns the
anchor unchanged when the anchor is already a valid business instant and
otherwise returns exactly the backward-anchored instant; when both
`days > 0` and `hours > 0` it applies day-advancement strictly before
hour-advancement. -/
theorem c8_identity_and_days_before_hours (ext : List Int) (fuel : Nat) (a : Int) :
    (isWorkingDay ext a = true ∧ isWithinBusinessHours a = true →
      calculateWorkingDateTime ext fuel 0 0 a = some a) ∧
    (¬(isWorkingDay ext a = true ∧ isWithinBusinessHours a = true) →
      calculateWorkingDateTime ext fuel 0 0 a = adjustToPreviousWorkingTime ext fuel a) ∧
    (∀ days hours : Nat, 0 < days → 0 < hours →
      calculateWorkingDateTime ext fuel days hours a =
        (if isWorkingDay ext a = false ∨ isWithinBusinessHours a = false then
            adjustToPreviousWorkingTime ext fuel a
          else some a).bind (fun t1 =>
            (addWorkingDays ext fuel days t1).bind (fun t2 =>
              addWorkingHours ext fuel t2 hours))) := by
  refine ⟨?_, ?_, ?_⟩
  · rintro ⟨hW, hB⟩
    simp [calculateWorkingDateTime, hW, hB]
  · intro h
    have hcond : isWorkingDay ext a = false ∨ isWithinBusinessHours a = false := by
      rcases hW : isWorkingDay ext a with _ | _
      · exact Or.inl rfl
      · rcases hB : isWithinBusinessHours a with _ | _
        · exact Or.inr rfl
        · exact absurd ⟨hW, hB⟩ h
    simp only [calculateWorkingDateTime, if_pos hcond]
    cases adjustToPreviousWorkingTime ext fuel a <;> simp
  · intro days hours hd hh
    simp only [calculateWorkingDateTime, if_pos hd, if_pos hh]

/-- C8 witness: at the valid anchor Friday 2025-01-03 10:00 local
(instant 28931940), the zero-request calculation is the identity. -/
theorem c8_identity_and_days_before_hours_witness :
    (isWorkingDay ([] : List Int) 28931940 = true ∧ isWithinBusinessHours 28931940 = true) ∧
    calculateWorkingDateTime [] 5 0 0 28931940 = some 28931940 :=
  ⟨⟨by decide, by decide⟩,
   (c8_identity_and_days_before_hours [] 5 28931940).1 ⟨by decide, by decide⟩⟩

/-- Loop invariant of `getNextWorkingDayStart`: every candidate sits at
business start (08:00), so a successful result is a working day at
08:00 local. -/
theorem nextDayStartLoop_spec (ext : List Int) :
    ∀ (f : Nat) (t r : Int), localTod t = 480 → nextDayStartLoop ext f t = some r →
      isWorkingDay ext r = true ∧ localTod r = 480 := by
  intro f
  induction f with
  | zero =>
    intro t r htod h
    simp only [nextDayStartLoop] at h
    split at h
    · next hW => cases h; exact ⟨hW, htod⟩
    · cases h
  | succ f ih =>
    intro t r htod h
    simp only [nextDayStartLoop] at h
    split at h
    · next hW => cases h; exact ⟨hW, htod⟩
    · next hW =>
      refine ih _ r ?_ h
      exact (localTod_setLocalTime _ _ _ (by decide)).trans (by decide)

/-- Any successful `getNextWorkingDayStart` lands on a working day at
business start (08:00 local). -/
theorem getNextWorkingDayStart_spec (ext : List Int) (fuel : Nat) (t r : Int)
    (h : getNextWorkingDayStart ext fuel t = some r) :
    isWorkingDay ext r = true ∧ localTod r = 480 := by
  refine nextDayStartLoop_spec ext fuel _ r ?_ h
  exact (localTod_setLocalTime _ _ _ (by decide)).trans (by decide)

/-- C3: when the current reading has zero remaining business minutes and
exactly one hour is requested, `addWorkingHours` returns
`getNextWorkingDayStart`, whose successful results are always working
days at 08:00 local; concretely, Friday 2025-01-03 17:00 local
(instant 28932360 = 2025-01-03T22:00Z) plus one working hour is Monday
2025-01-06 08:00 local (instant 28936140 = 2025-01-06T13:00Z). -/
theorem c3_one_hour_from_exhausted_day :
    (∀ (ext : List Int) (fuel : Nat) (t : Int),
      calculateRemainingBusinessMinutes t = 0 →
        addWorkingHours ext fuel t 1 = getNextWorkingDayStart ext fuel t) ∧
    (∀ (ext : List Int) (fuel : Nat) (t r : Int),
      getNextWorkingDayStart ext fuel t = some r →
        isWorkingDay ext r = true ∧ localTod r = 480) ∧
    addWorkingHours [] 10 28932360 1 = some 28936140 := by
  refine ⟨?_, getNextWorkingDayStart_spec, by decide⟩
  intro ext fuel t h
  simp [addWorkingHours, h]

/-- C3 witness: the Friday 17:00 anchor has zero remaining business
minutes, the special case fires, and the landing instant is a working
day at 08:00 local. -/
theorem c3_one_hour_from_exhausted_day_witness :
    calculateRemainingBusinessMinutes 28932360 = 0 ∧
    addWorkingHours [] 10 28932360 1 = getNextWorkingDayStart [] 10 28932360 ∧
    (isWorkingDay [] 28936140 = true ∧ localTod 28936140 = 480) :=
  ⟨by decide,
   c3_one_hour_from_exhausted_day.1 [] 10 28932360 (by decide),
   c3_one_hour_from_exhausted_day.2.1 [] 10 28932360 28936140 (by decide)⟩

/-- Rule-by-rule enumeration of the locally computed Colombian holiday
set for a year (the spec's three rule classes): six fixed dates on their
literal (month, day); seven bridge-law dates moved to the next Monday;
Holy Thursday and Good Friday at Easter−3/−2 untransposed; Ascension,
Corpus Christi and Sacred Heart at Easter+39/+60/+68 moved to the next
Monday. -/
def holidaysByRule (year : Nat) : List Int :=
  [daysFromCivil year 1 1, daysFromCivil year 5 1, daysFromCivil year 7 20,
   daysFromCivil year 8 7, daysFromCivil year 12 8, daysFromCivil year 12 25,
   moveToNextMonday (daysFromCivil year 1 6), moveToNextMonday (daysFromCivil year 3 19),
   moveToNextMonday (daysFromCivil year 6 29), moveToNextMonday (daysFromCivil year 8 15),
   moveToNextMonday (daysFromCivil year 10 12), moveToNextMonday (daysFromCivil year 11 1),
   moveToNextMonday (daysFromCivil year 11 11),
   calculateEaster year - 3, calculateEaster year - 2,
   moveToNextMonday (calculateEaster year + 39),
   moveToNextMonday (calculateEaster year + 60),
   moveToNextMonday (calculateEaster year + 68)]

/-- C6: for every year the computed holiday list is a permutation of the
rule-by-rule enumeration (fixed dates literal, bridge-law and the three
late Easter-relative feasts Monday-transposed, Holy Thursday and Good
Friday untransposed), and the Monday transposition always lands on a
Monday after a forward shift of 0–6 days, fixing exactly the dates that
already are Mondays. -/
theorem c6_holiday_rules_and_transposition (year : Nat) :
    (calculateColombianHolidays year).Perm (holidaysByRule year) ∧
    (∀ z : Int, jsDay (moveToNextMonday z) = 1 ∧ z ≤ moveToNextMonday z ∧
      moveToNextMonday z ≤ z + 6 ∧ (moveToNextMonday z = z ↔ jsDay z = 1)) := by
  constructor
  · have heq : calculateColombianHolidays year
        = (holidaysByRule year).mergeSort (fun x y => decide (x ≤ y)) := rfl
    rw [heq]
    exact List.mergeSort_perm _ _
  · intro z
    have hlt : jsDay z < 7 := by simp only [jsDay]; omega
    by_cases h : jsDay z = 1
    · simp [moveToNextMonday, h]
    · rw [moveToNextMonday, if_neg h]
      have hk1 : 1 ≤ (8 - jsDay z) % 7 := by omega
      have hk6 : (8 - jsDay z) % 7 ≤ 6 := by omega
      refine ⟨?_, by omega, by omega, ?_⟩
      · simp only [jsDay] at *
        omega
      · constructor
        · intro he
          exfalso
          omega
        · intro h1
          exact absurd h1 h

/-- Spec-side formulation of the standard Western/Gregorian Easter
algorithm (the anonymous Gregorian computus), written as the usual
variable chain `a, b, c, d, e, f, g, h, i, k, l, m` over
`year mod 19`, `year div/mod 100`, div/mod 4, div 25, etc. -/
def gregorianComputus (year : Nat) : Nat × Nat :=
  let a : Int := year % 19
  let b : Int := year / 100
  let c : Int := year % 100
  let d := b / 4
  let e := b % 4
  let f := (b + 8) / 25
  let g := (b - f + 1) / 3
  let h := (19 * a + b - d - g + 15) % 30
  let i := c / 4
  let k := c % 4
  let l := (32 + 2 * e + 2 * i - h - k) % 7
  let m := (a + 11 * h + 22 * l) / 451
  (((h + l - 7 * m + 114) / 31).toNat, ((h + l - 7 * m + 114) % 31 + 1).toNat)

/-- Validity check for a computed Easter date: it falls on a Sunday and
within March 22 – April 25. -/
def easterValid (year : Nat) : Bool :=
  decide (jsDay (calculateEaster year) = 0) &&
  (decide ((calculateEasterMonthDay year).1 = 3) &&
      decide (22 ≤ (calculateEasterMonthDay year).2) &&
      decide ((calculateEasterMonthDay year).2 ≤ 31) ||
    decide ((calculateEasterMonthDay year).1 = 4) &&
      decide (1 ≤ (calculateEasterMonthDay year).2) &&
      decide ((calculateEasterMonthDay year).2 ≤ 25))

set_option maxRecDepth 8000 in
set_option maxHeartbeats 1000000 in
/-- C7: the Easter computation of the source coincides with the standard
Gregorian computus for every year, and (as a sanity validation) for the
years 1900–2199 the computed date is a Sunday between March 22 and
April 25. -/
theorem c7_easter_is_standard_computus :
    (∀ year : Nat, calculateEasterMonthDay year = gregorianComputus year) ∧
    (∀ k : Nat, k < 300 → easterValid (1900 + k) = true) := by
  constructor
  · intro year
    rfl
  · have hall : (List.range 300).all (fun k => easterValid (1900 + k)) = true := by decide
    intro k hk
    have := List.all_eq_true.mp hall k (List.mem_range.mpr hk)
    simpa using this

/-- C7 witness: the 2025 instance (k = 125) of the validation. -/
theorem c7_easter_is_standard_computus_witness :
    easterValid (1900 + 125) = true :=
  c7_easter_is_standard_computus.2 125 (by decide)

/-! ## C5: behaviour of the backward search on long holiday runs -/

/-- A run of `n` consecutive holiday dates starting at day `d0` (the
corrupted-calendar scenario the spec's defensive cap is meant for). -/
def holidayRange (d0 : Int) (n : Nat) : List Int :=
  (List.range n).map (fun (k : Nat) => d0 + (k : Int))

theorem holidayRange_contains (d0 : Int) (n : Nat) (z : Int) :
    (holidayRange d0 n).contains z = true ↔ (d0 ≤ z ∧ z < d0 + n) := by
  rw [show (holidayRange d0 n).contains z = List.elem z (holidayRange d0 n) from rfl,
    List.elem_iff]
  simp only [holidayRange, List.mem_map, List.mem_range]
  constructor
  · rintro ⟨k, hk, rfl⟩
    omega
  · intro h
    exact ⟨(z - d0).toNat, by omega, by omega⟩

/-- The instant at business end-of-day (17:00 local) of local day `d`. -/
def eodInstant (d : Int) : Int := 1440 * d + 1320

theorem localDay_eodInstant (d : Int) : localDay (eodInstant d) = d := by
  simp only [localDay, eodInstant]; omega

theorem localTod_eodInstant (d : Int) : localTod (eodInstant d) = 1020 := by
  simp only [localTod, eodInstant]; omega

theorem utcDay_eodInstant (d : Int) : utcDay (eodInstant d) = d := by
  simp only [utcDay, eodInstant]; omega

theorem prevDayEod_eodInstant (d : Int) : prevDayEod (eodInstant d) = eodInstant (d - 1) := by
  simp only [prevDayEod, setLocalTime, localDay, eodInstant, BusinessHoursConfig]
  omega

/-- Inside a holiday run every candidate fails `isWorkingDay`
(regardless of weekday, membership in the external list decides it). -/
theorem isWorkingDay_in_run (d0 : Int) (n : Nat) (t : Int)
    (h1 : d0 ≤ utcDay t) (h2 : utcDay t < d0 + n) :
    isWorkingDay (holidayRange d0 n) t = false := by
  have hc : (holidayRange d0 n).contains (utcDay t) = true :=
    (holidayRange_contains d0 n (utcDay t)).mpr ⟨h1, h2⟩
  simp only [isWorkingDay, isHoliday]
  split
  · rfl
  · rw [hc]
    rfl

/-- A candidate that already is a working day ends the `while` loop at
once, for any fuel. -/
theorem seekWorkingDay_of_working (ext : List Int) (t : Int)
    (h : isWorkingDay ext t = true) (f : Nat) :
    seekWorkingDay ext f t = some t := by
  cases f <;> simp [seekWorkingDay, h]

/-- With the candidate still at least `f` days above the bottom of the
holiday run, `f` backward steps are not enough: the search is still
running when the fuel is exhausted. -/
theorem seekWorkingDay_none_in_run (d0 : Int) (n : Nat) :
    ∀ (f : Nat) (d : Int), d0 ≤ d - f → d < d0 + n →
      seekWorkingDay (holidayRange d0 n) f (eodInstant d) = none := by
  intro f
  induction f with
  | zero =>
    intro d h1 h2
    have hW := isWorkingDay_in_run d0 n (eodInstant d)
      (by rw [utcDay_eodInstant]; omega) (by rw [utcDay_eodInstant]; omega)
    simp [seekWorkingDay, hW]
  | succ f ih =>
    intro d h1 h2
    have hW := isWorkingDay_in_run d0 n (eodInstant d)
      (by rw [utcDay_eodInstant]; omega) (by rw [utcDay_eodInstant]; omega)
    simp only [seekWorkingDay, hW, Bool.false_eq_true, if_false]
    rw [prevDayEod_eodInstant]
    exact ih (d - 1) (by omega) (by omega)

/-- With enough fuel the backward search walks the whole run and stops
at end-of-day of the day just below it. -/
theorem seekWorkingDay_exits_run (d0 : Int) (n : Nat)
    (hwd : isWorkingDay (holidayRange d0 n) (eodInstant (d0 - 1)) = true) :
    ∀ (f : Nat) (d : Int), d0 ≤ d → d < d0 + n → (d - d0).toNat < f →
      seekWorkingDay (holidayRange d0 n) f (eodInstant d) = some (eodInstant (d0 - 1)) := by
  intro f
  induction f with
  | zero =>
    intro d _ _ hf
    omega
  | succ f ih =>
    intro d hd1 hd2 hf
    have hW := isWorkingDay_in_run d0 n (eodInstant d)
      (by rw [utcDay_eodInstant]; omega) (by rw [utcDay_eodInstant]; omega)
    simp only [seekWorkingDay, hW, Bool.false_eq_true, if_false]
    rw [prevDayEod_eodInstant]
    rcases eq_or_lt_of_le hd1 with heq | hlt
    · rw [← heq]
      exact seekWorkingDay_of_working _ _ hwd f
    · exact ih (d - 1) (by omega) (by omega) (by omega)

/-- If the day-seeking loop exhausts its fuel, the whole backward
adjustment is still unfinished. -/
theorem adjust_of_seek_none (ext : List Int) (f : Nat) (t : Int)
    (h : seekWorkingDay ext f t = none) :
    adjustToPreviousWorkingTime ext f t = none := by
  cases f <;> simp [adjustToPreviousWorkingTime, h]

/-- If the day-seeking loop lands on a candidate already within business
hours, the backward adjustment returns it. -/
theorem adjust_of_seek_some_valid (ext : List Int) (f : Nat) (t c : Int)
    (h : seekWorkingDay ext f t = some c) (hB : isWithinBusinessHours c = true) :
    adjustToPreviousWorkingTime ext f t = some c := by
  cases f <;> simp [adjustToPreviousWorkingTime, h, hB]

/-- C5 counterexample: the backward search has no 400-step cap and no
`CalendarExhausted` condition.  On a 450-day holiday run
(2025-01-01 = day 20089 through day 20538), anchored at the last run
day's end-of-day, the search is still running after 400 backward steps
(fuel 400 yields no result — nothing is raised at the cap), and with
more fuel it simply completes normally. -/
theorem c5_no_cap_counterexample :
    adjustToPreviousWorkingTime (holidayRange 20089 450) 400 (eodInstant 20538) = none ∧
    adjustToPreviousWorkingTime (holidayRange 20089 450) 1000 (eodInstant 20538)
      = some (eodInstant 20088) := by
  constructor
  · exact adjust_of_seek_none _ _ _
      (seekWorkingDay_none_in_run 20089 450 400 20538 (by decide) (by decide))
  · refine adjust_of_seek_some_valid _ _ _ _ ?_ ?_
    · exact seekWorkingDay_exits_run 20089 450 (by decide) 1000 20538
        (by decide) (by decide) (by decide)
    · refine (isWithinBusinessHours_iff _).mpr ?_
      rw [localTod_eodInstant]
      omega

/-- C5 amended: the backward-anchoring search of the source is a
`while` loop plus recursion with no iteration cap and no
`CalendarExhausted` condition; each backward day-step strictly
decreases the candidate instant, and a search that needs more than 400
steps (here 450, across a 450-day holiday run) completes normally with
a valid business instant instead of raising anything. -/
theorem c5_unbounded_but_decreasing :
    (∀ t : Int, prevDayEod t < t) ∧
    (∀ (ext : List Int) (t : Int), isWorkingDay ext t = false →
      ∀ f : Nat, seekWorkingDay ext (f+1) t = seekWorkingDay ext f (prevDayEod t)) ∧
    adjustToPreviousWorkingTime (holidayRange 20089 450) 1000 (eodInstant 20538)
      = some (eodInstant 20088) ∧
    isWorkingDay (holidayRange 20089 450) (eodInstant 20088) = true ∧
    isWithinBusinessHours (eodInstant 20088) = true := by
  refine ⟨?_, ?_, ?_, by decide, by decide⟩
  · intro t
    simp only [prevDayEod, setLocalTime, localDay, BusinessHoursConfig]
    omega
  · intro ext t h f
    simp [seekWorkingDay, h]
  · refine adjust_of_seek_some_valid _ _ _ _ ?_ ?_
    · exact seekWorkingDay_exits_run 20089 450 (by decide) 1000 20538
        (by decide) (by decide) (by decide)
    · refine (isWithinBusinessHours_iff _).mpr ?_
      rw [localTod_eodInstant]
      omega

/-- C5 witness (for the amended theorem's hypothesis-bearing conjunct):
one backward step from the 450-day run's last end-of-day. -/
theorem c5_unbounded_but_decreasing_witness :
    isWorkingDay (holidayRange 20089 450) (eodInstant 20538) = false ∧
    seekWorkingDay (holidayRange 20089 450) 1 (eodInstant 20538)
      = seekWorkingDay (holidayRange 20089 450) 0 (prevDayEod (eodInstant 20538)) :=
  ⟨by decide,
   c5_unbounded_but_decreasing.2.1 (holidayRange 20089 450) (eodInstant 20538) (by decide) 0⟩
